import Mathlib

/-!
Verification of the `kqlfilter` package of mycujoo/go-stdlib: a shallow
embedding of the KQL lexer (lexer.go, the current dialect emitting
`itemString`/`itemSpace` tokens), the recursive-descent parser (parser.go),
the AST node model (node.go), the tree transform (transform.go) and the
simplified-filter projection (filter.go, the version whose `Clause` carries
`Values []string` and an `IN` operator).

Modelling conventions:
* Go strings are modelled as `List Char`; token positions are character
  offsets (they coincide with Go's byte offsets on ASCII input, and no
  theorem below depends on the numeric value of a position on non-ASCII
  input).
* The `line` field of lexer items is omitted: nothing in the package reads
  it back.
* The lexer's state-function loop is flattened into one Lean function per
  Go state function; the parser's panic/recover control flow becomes an
  `Except` error monad, with the panic value distinction (error value vs
  runtime fault) modelled explicitly for the `recover` handler.
* The parser's mutual recursion is bounded by a fuel parameter; the fuel
  supplied by the entry point is far larger than the call depth the token
  list can generate, so the out-of-fuel branch is unreachable.
-/

/-- Token kinds of the kqlfilter lexer (`itemType` in lexer.go). -/
inductive ItemType where
  | itemError
  | itemEOF
  | itemSpace
  | itemBool
  | itemString
  | itemOr
  | itemAnd
  | itemNot
  | itemLeftParen
  | itemRightParen
  | itemLeftBrace
  | itemRightBrace
  | itemColon
  | itemWildcard
  | itemRangeOperator
deriving DecidableEq, Repr

/-- A lexer token (`item` in lexer.go); the `line` field is omitted. -/
structure Item where
  typ : ItemType
  pos : Nat
  val : List Char
deriving DecidableEq, Repr

/-- Space characters of the lexer (`isSpace` in lexer.go). -/
def isSpaceGo (r : Char) : Bool :=
  r = ' ' || r = '\t' || r = '\r' || r = '\n'

/-- Characters that may follow a backslash as a self-escape
(the character lists in `lexString` and `replaceEscapes`). -/
def escapeChars : List Char :=
  ['\\', '(', ')', Char.ofNat 123, Char.ofNat 125, ':', '<', '>', '"', '*']

/-- Special symbols of the lexer (`isSpecialSymbol` in lexer.go). -/
def isSpecialSymbol (r : Char) : Bool :=
  escapeChars.contains r

/-- Left brace character, written via its code point. -/
def lbrace : Char := Char.ofNat 123

/-- Right brace character, written via its code point. -/
def rbrace : Char := Char.ofNat 125

/-- Terminator test after a bare word (`atTerminator` in lexer.go): space,
end of input, or one of the non-backslash special symbols except `"`. -/
def atTerminatorLex (r : Option Char) : Bool :=
  match r with
  | none => true
  | some c =>
    isSpaceGo c || (['*', '>', '<', ':', ')', '(', rbrace, lbrace].contains c)

/-- Escape resolution (`replaceEscapes` in lexer.go): backslash followed by a
self-escape keeps the escaped character; backslash-a/o/n stand for the
keywords `and`/`or`/`not` and skip the assumed remaining keyword letters; any
other escaped character is dropped.  A trailing lone backslash cannot reach
this function from its call sites (the scanners reject it first); it is
mapped to nothing here, where Go would fault. -/
def replaceEscapes : List Char → List Char
  | [] => []
  | '\\' :: rest =>
    match rest with
    | [] => []
    | c :: rest2 =>
      if escapeChars.contains c then c :: replaceEscapes rest2
      else if c = 'a' then
        match rest2 with
        | [] => ['a', 'n', 'd']
        | [_] => ['a', 'n', 'd']
        | _ :: _ :: rest3 => 'a' :: 'n' :: 'd' :: replaceEscapes rest3
      else if c = 'o' then
        match rest2 with
        | [] => ['o', 'r']
        | _ :: rest3 => 'o' :: 'r' :: replaceEscapes rest3
      else if c = 'n' then
        match rest2 with
        | [] => ['n', 'o', 't']
        | [_] => ['n', 'o', 't']
        | _ :: _ :: rest3 => 'n' :: 'o' :: 't' :: replaceEscapes rest3
      else replaceEscapes rest2
  | c :: rest => c :: replaceEscapes rest

/-- Scanner loop of a double-quoted string (`lexQuote` in lexer.go), entered
after the opening quote; `acc` is the raw text consumed so far.  Returns the
raw quoted text (quotes included) and the rest of the input, or the lexical
error message. -/
def scanQuote (acc : List Char) : List Char → Except String (List Char × List Char)
  | [] => .error "unterminated quoted string"
  | c :: rest =>
    if c = '\\' then
      match rest with
      | [] => .error "unterminated quoted string"
      | c2 :: rest2 =>
        if c2 = '\n' then .error "unterminated quoted string"
        else scanQuote (acc ++ [c, c2]) rest2
    else if c = '\n' then .error "unterminated quoted string"
    else if c = '"' then .ok (acc ++ [c], rest)
    else scanQuote (acc ++ [c]) rest

/-- Scanner loop of a bare word (`lexString` in lexer.go); `acc` is the raw
text consumed so far (the first character was consumed by `lexExpression`).
Stops before a special symbol, space or end of input; validates escape
sequences; rejects a stop at `"` (the `atTerminator` check). -/
def scanWord (acc : List Char) : List Char → Except String (List Char × List Char)
  | [] => .ok (acc, [])
  | c :: rest =>
    if c = '\\' then
      match rest with
      | [] => .error "invalid escape sequence"
      | e :: rest2 =>
        if escapeChars.contains e then scanWord (acc ++ [c, e]) rest2
        else if e = 'a' then
          match rest2 with
          | 'n' :: 'd' :: rest3 => scanWord (acc ++ [c, 'a', 'n', 'd']) rest3
          | _ => .error "invalid escape sequence"
        else if e = 'o' then
          match rest2 with
          | 'r' :: rest3 => scanWord (acc ++ [c, 'o', 'r']) rest3
          | _ => .error "invalid escape sequence"
        else if e = 'n' then
          match rest2 with
          | 'o' :: 't' :: rest3 => scanWord (acc ++ [c, 'n', 'o', 't']) rest3
          | _ => .error "invalid escape sequence"
        else .error "invalid escape sequence"
    else if isSpecialSymbol c || isSpaceGo c then
      if atTerminatorLex (some c) then .ok (acc, c :: rest)
      else .error "bad character"
    else scanWord (acc ++ [c]) rest

/-- Keyword table of the lexer (`key` in lexer.go), keyed on the lowercased
word. -/
def keywordType (lower : List Char) : Option ItemType :=
  if lower = "or".toList then some .itemOr
  else if lower = "and".toList then some .itemAnd
  else if lower = "not".toList then some .itemNot
  else if lower = "true".toList then some .itemBool
  else if lower = "false".toList then some .itemBool
  else none

/-- Result of one lexer step: the token, the unconsumed input, the position
after the token, and the updated parenthesis/brace depths. -/
structure LexOut where
  tok : Item
  rest : List Char
  pos : Nat
  parenDepth : Int
  braceDepth : Int
deriving Repr

/-- Convenience constructor for an error token: the lexer's `errorf`
truncates its input, so the rest is empty. -/
def lexErrOut (msg : String) (pos0 : Nat) (pd bd : Int) : LexOut :=
  ⟨⟨.itemError, pos0, msg.toList⟩, [], pos0, pd, bd⟩

/-- One lexer step (`nextItem`/`lexExpression` in lexer.go): produce the next
token starting at position `pos0` with unconsumed input `rest` and current
grouping depths. -/
def nextItemF (pos0 : Nat) (rest : List Char) (pd bd : Int) : LexOut :=
  match rest with
  | [] =>
    if pd ≠ 0 then lexErrOut "unclosed left parenthesis" pos0 pd bd
    else if bd ≠ 0 then lexErrOut "unclosed left brace" pos0 pd bd
    else ⟨⟨.itemEOF, pos0, []⟩, [], pos0, pd, bd⟩
  | c :: r1 =>
    if isSpaceGo c then
      let sp := r1.takeWhile isSpaceGo
      ⟨⟨.itemSpace, pos0, c :: sp⟩, r1.dropWhile isSpaceGo, pos0 + 1 + sp.length, pd, bd⟩
    else if c = ':' then
      ⟨⟨.itemColon, pos0, [c]⟩, r1, pos0 + 1, pd, bd⟩
    else if c = '"' then
      match scanQuote [c] r1 with
      | .error msg => lexErrOut msg pos0 pd bd
      | .ok (raw, r2) =>
        ⟨⟨.itemString, pos0, replaceEscapes raw⟩, r2, pos0 + raw.length, pd, bd⟩
    else if c = '<' || c = '>' then
      match r1 with
      | '=' :: r2 => ⟨⟨.itemRangeOperator, pos0, [c, '=']⟩, r2, pos0 + 2, pd, bd⟩
      | _ => ⟨⟨.itemRangeOperator, pos0, [c]⟩, r1, pos0 + 1, pd, bd⟩
    else if c = '*' then
      ⟨⟨.itemWildcard, pos0, [c]⟩, r1, pos0 + 1, pd, bd⟩
    else if c = '(' then
      ⟨⟨.itemLeftParen, pos0, [c]⟩, r1, pos0 + 1, pd + 1, bd⟩
    else if c = ')' then
      if pd - 1 < 0 then lexErrOut "unexpected right parenthesis" pos0 (pd - 1) bd
      else ⟨⟨.itemRightParen, pos0, [c]⟩, r1, pos0 + 1, pd - 1, bd⟩
    else if c = lbrace then
      ⟨⟨.itemLeftBrace, pos0, [c]⟩, r1, pos0 + 1, pd, bd + 1⟩
    else if c = rbrace then
      if bd - 1 < 0 then lexErrOut "unexpected right brace" pos0 pd (bd - 1)
      else ⟨⟨.itemRightBrace, pos0, [c]⟩, r1, pos0 + 1, pd, bd - 1⟩
    else
      match scanWord [c] r1 with
      | .error msg => lexErrOut msg pos0 pd bd
      | .ok (raw, r2) =>
        match keywordType (raw.map Char.toLower) with
        | some t => ⟨⟨t, pos0, raw⟩, r2, pos0 + raw.length, pd, bd⟩
        | none =>
          ⟨⟨.itemString, pos0, replaceEscapes raw⟩, r2, pos0 + raw.length, pd, bd⟩

/-- Run the lexer to the terminal token (EOF or error), collecting all tokens
in order.  Every non-terminal token consumes at least one character, so fuel
`rest.length + 1` always reaches the terminal token. -/
def tokenizeAux (fuel : Nat) (pos : Nat) (rest : List Char) (pd bd : Int) : List Item :=
  match fuel with
  | 0 => []
  | fuel + 1 =>
    let o := nextItemF pos rest pd bd
    if o.tok.typ = .itemEOF || o.tok.typ = .itemError then [o.tok]
    else o.tok :: tokenizeAux fuel o.pos o.rest o.parenDepth o.braceDepth

/-- Tokenize a whole input string (repeated `nextItem` calls of the parser). -/
def tokenize (s : List Char) : List Item :=
  tokenizeAux (s.length + 1) 0 s 0 0

/-- Range comparison operators (`RangeOperator` in node.go). -/
inductive RangeOp where
  | gt
  | gte
  | lt
  | lte
deriving DecidableEq, Repr

/-- Rendering of a range operator (`RangeOperator.String` in node.go).  The
Go type is an integer whose unrecognized values render as three question
marks; the parser only ever constructs the four values modelled here. -/
def RangeOp.render : RangeOp → List Char
  | .gt => ['>']
  | .gte => ['>', '=']
  | .lt => ['<']
  | .lte => ['<', '=']

/-- AST nodes (node.go): the closed set of variants produced by the parser.
Each node keeps its source position. -/
inductive Node where
  | orN (pos : Nat) (nodes : List Node)
  | andN (pos : Nat) (nodes : List Node)
  | notN (pos : Nat) (expr : Node)
  | isN (pos : Nat) (identifier : List Char) (value : Node)
  | rangeN (pos : Nat) (identifier : List Char) (op : RangeOp) (value : Node)
  | nestedN (pos : Nat) (expr : Node)
  | literalN (pos : Nat) (value : List Char)
deriving Repr

mutual

/-- Canonical rendering of a node (the `writeTo`/`String` methods in
node.go): `And`/`Or` render their children joined by the spelled operator
inside parentheses, `Not` prefixes its child, `Is` joins identifier and
value with an equals sign, `Range` with the operator symbol, `Nested` wraps
braces, `Literal` is its raw value. -/
def renderNode : Node → List Char
  | .orN _ ns => '(' :: renderNodes " OR ".toList ns ++ [')']
  | .andN _ ns => '(' :: renderNodes " AND ".toList ns ++ [')']
  | .notN _ e => "NOT ".toList ++ renderNode e
  | .isN _ id v => id ++ '=' :: renderNode v
  | .rangeN _ id op v => id ++ op.render ++ renderNode v
  | .nestedN _ e => lbrace :: renderNode e ++ [rbrace]
  | .literalN _ v => v

/-- Rendering of a child list with a separator between consecutive children
(the `writeTo` loops of `OrNode` and `AndNode`). -/
def renderNodes (sep : List Char) : List Node → List Char
  | [] => []
  | [n] => renderNode n
  | n :: rest => renderNode n ++ sep ++ renderNodes sep rest

end

/-- String form of a node, for statements about `String()` output. -/
def renderString (n : Node) : String :=
  String.mk (renderNode n)

/-- A positioned parser error: `errorf` in parser.go formats its message
together with the offending token position. -/
structure PError where
  msg : String
  pos : Nat
deriving DecidableEq, Repr

/-- The full text of a parser error as produced by `errorf` in parser.go. -/
def renderPError (e : PError) : String :=
  "parser error: " ++ e.msg ++ " at pos " ++ toString e.pos

/-- Printable form of a token (`item.String` in lexer.go): EOF prints as the
word EOF, an error token prints its message, other tokens print their quoted
text, truncated to ten characters.  Internal quoting of special characters
inside the text is not reproduced; no token reaching an error message in the
theorems below contains characters Go would escape. -/
def itemText (t : Item) : String :=
  if t.typ = .itemEOF then "EOF"
  else if t.typ = .itemError then String.mk t.val
  else if t.val.length > 10 then "\"" ++ String.mk (t.val.take 10) ++ "\"..."
  else "\"" ++ String.mk t.val ++ "\""

/-- The parser error raised by `unexpected` in parser.go: a lexer error
token passes its own message through; any other token reports itself and the
grammar context. -/
def unexpectedErr (tok : Item) (context : String) : PError :=
  if tok.typ = .itemError then ⟨String.mk tok.val, tok.pos⟩
  else ⟨"unexpected " ++ itemText tok ++ " in " ++ context, tok.pos⟩

/-- Parser state (`parser` struct in parser.go): the remaining tokens stand
in for the lexer plus the three-token lookahead buffer, and the option
fields and depth/complexity counters match the Go struct. -/
structure PState where
  tokens : List Item
  disableComplexExpressions : Bool
  maxDepth : Int
  currentDepth : Int
  maxComplexity : Int
  currentComplexity : Int
deriving Repr

/-- Read the next token without consuming it (`peek` in parser.go).  The
token list produced by `tokenize` is never empty; the empty case returns an
EOF token for totality. -/
def peekTok (st : PState) : Item :=
  match st.tokens with
  | [] => ⟨.itemEOF, 0, []⟩
  | t :: _ => t

/-- Consume the next token (`next` in parser.go).  The terminal token (EOF
or error) is sticky, exactly as the Go lexer keeps answering EOF at the end
of input. -/
def nextTok (st : PState) : Item × PState :=
  match st.tokens with
  | [] => (⟨.itemEOF, 0, []⟩, st)
  | [t] => (t, st)
  | t :: ts => (t, { st with tokens := ts })

/-- Consume the next token, keeping only the state (`p.next()` used for its
side effect). -/
def bumpTok (st : PState) : PState :=
  (nextTok st).2

/-- Skip a run of space tokens (`eatSpace` in parser.go). -/
def eatSpace (st : PState) : PState :=
  { st with tokens := st.tokens.dropWhile (fun t => t.typ == .itemSpace) }

/-- Terminator test of `parseValue` (`atTerminator` in parser.go). -/
def atTerminatorP (st : PState) : Bool :=
  match (peekTok st).typ with
  | .itemEOF => true
  | .itemSpace => true
  | .itemLeftBrace => true
  | .itemLeftParen => true
  | .itemRightParen => true
  | .itemRightBrace => true
  | _ => false

/-- Sentinel for fuel exhaustion.  The fuel granted by the entry point
strictly dominates the recursion depth any token list can force, so this
error is unreachable through `parseASTGo`. -/
def fuelErr : PError := ⟨"out of fuel", 0⟩

/-- The grammar production being entered, with the accumulator arguments of
the source's loops; used to drive the single fuel-indexed interpreter
`parseRun` below.  Each constructor corresponds to one parser.go function
(or to the loop inside one). -/
inductive ProdCall where
  | orK
  | orLoopK (startPos : Nat) (acc : List Node)
  | andK
  | andLoopK (startPos : Nat) (acc : List Node)
  | notK
  | subQueryK
  | expressionK
  | listOfValuesK
  | valueK
  | valueLoopK (pos : Nat) (acc : List Char) (count : Nat)
  | topLoopK (acc : List Node)
deriving Repr

/-- Shorthand for the result type of every production. -/
def PResult : Type := Except PError (Node × PState)

/-- Body of `parseOr` (parser.go): parse an AND chain, then iterate over
further OR-separated AND chains; `go` performs the recursive production
calls. -/
def parseOrBody (go : ProdCall → PState → PResult) (st : PState) : PResult :=
  let startPos := (peekTok st).pos
  match go .andK st with
  | .error e => .error e
  | .ok (first, st1) => go (.orLoopK startPos [first]) (eatSpace st1)

/-- Body of the loop of `parseOr` (parser.go): on an OR token, reject
complex expressions in restricted mode, count complexity against the limit,
then consume the operator and parse the next AND chain; on any other token
finish, collapsing a single child. -/
def parseOrLoopBody (go : ProdCall → PState → PResult) (startPos : Nat)
    (acc : List Node) (st : PState) : PResult :=
  if (peekTok st).typ = .itemOr then
    if st.disableComplexExpressions then
      .error ⟨"complex expressions are not allowed", (peekTok st).pos⟩
    else
      let st1 := { st with currentComplexity := st.currentComplexity + 1 }
      if st1.currentComplexity > st1.maxComplexity then
        .error ⟨"maximum complexity exceeded", (peekTok st).pos⟩
      else
        match go .andK (eatSpace (bumpTok st1)) with
        | .error e => .error e
        | .ok (next1, st2) => go (.orLoopK startPos (acc ++ [next1])) st2
  else
    match acc with
    | [single] => .ok (single, st)
    | _ => .ok (.orN startPos acc, st)

/-- Body of `parseAnd` (parser.go).  Note that restricted mode performs no
check here: explicit AND is accepted. -/
def parseAndBody (go : ProdCall → PState → PResult) (st : PState) : PResult :=
  let startPos := (peekTok st).pos
  match go .notK st with
  | .error e => .error e
  | .ok (first, st1) => go (.andLoopK startPos [first]) (eatSpace st1)

/-- Body of the loop of `parseAnd` (parser.go): on an AND token, count
complexity against the limit, consume the operator, parse the next NOT
production and skip trailing space; otherwise finish, collapsing a single
child. -/
def parseAndLoopBody (go : ProdCall → PState → PResult) (startPos : Nat)
    (acc : List Node) (st : PState) : PResult :=
  if (peekTok st).typ = .itemAnd then
    let st1 := { st with currentComplexity := st.currentComplexity + 1 }
    if st1.currentComplexity > st1.maxComplexity then
      .error ⟨"maximum complexity exceeded", (peekTok st).pos⟩
    else
      match go .notK (eatSpace (bumpTok st1)) with
      | .error e => .error e
      | .ok (next1, st2) => go (.andLoopK startPos (acc ++ [next1])) (eatSpace st2)
  else
    match acc with
    | [single] => .ok (single, st)
    | _ => .ok (.andN startPos acc, st)

/-- Body of `parseNot` (parser.go).  Restricted mode performs no check
here: NOT is accepted. -/
def parseNotBody (go : ProdCall → PState → PResult) (st : PState) : PResult :=
  if (peekTok st).typ = .itemNot then
    let pos := (peekTok st).pos
    match go .subQueryK (eatSpace (bumpTok st)) with
    | .error e => .error e
    | .ok (expr, st1) => .ok (.notN pos expr, st1)
  else
    go .subQueryK st

/-- Body of `parseSubQuery` (parser.go).  Restricted mode performs no check
here: grouping parentheses are accepted.  The depth error carries the
position of the token following the opening parenthesis and spaces, which is
the token in the buffer at the moment `errorf` fires. -/
def parseSubQueryBody (go : ProdCall → PState → PResult) (st : PState) : PResult :=
  if (peekTok st).typ = .itemLeftParen then
    let st1 := eatSpace (bumpTok st)
    let st2 := { st1 with currentDepth := st1.currentDepth + 1 }
    if st2.maxDepth > 0 && st2.currentDepth + 1 > st2.maxDepth then
      .error ⟨"maximum nesting depth exceeded", (peekTok st2).pos⟩
    else
      match go .orK st2 with
      | .error e => .error e
      | .ok (n, st3) =>
        let st4 := eatSpace st3
        let (tok, st5) := nextTok st4
        if tok.typ = .itemRightParen then
          .ok (n, { st5 with currentDepth := st5.currentDepth - 1 })
        else .error (unexpectedErr tok "subquery")
  else
    go .expressionK st

/-- Body of `parseExpression` (parser.go): an identifier followed by a colon
and a value list, or by a range operator and a value, or standing alone as a
literal; a bare boolean literal; anything else is a syntax error.  Go's
one-token backup after reading the operator is modelled by peeking and
consuming only in the colon/range branches. -/
def parseExpressionBody (go : ProdCall → PState → PResult) (st : PState) : PResult :=
  match (peekTok st).typ with
  | .itemString =>
    let (idItem, st1) := nextTok st
    let st2 := eatSpace st1
    let op := peekTok st2
    if op.typ = .itemColon then
      match go .listOfValuesK (eatSpace (bumpTok st2)) with
      | .error e => .error e
      | .ok (value, st3) => .ok (.isN idItem.pos idItem.val value, st3)
    else if op.typ = .itemRangeOperator then
      match go .valueK (eatSpace (bumpTok st2)) with
      | .error e => .error e
      | .ok (value, st3) =>
        let rop : RangeOp :=
          if op.val = "<".toList then .lt
          else if op.val = "<=".toList then .lte
          else if op.val = ">".toList then .gt
          else if op.val = ">=".toList then .gte
          else .gt
        .ok (.rangeN idItem.pos idItem.val rop value, st3)
    else
      .ok (.literalN idItem.pos idItem.val, st2)
  | .itemBool =>
    let (value, st1) := nextTok st
    .ok (.literalN value.pos value.val, st1)
  | _ => .error (unexpectedErr (peekTok st) "expression")

/-- Body of `parseListOfValues` (parser.go): a braced nested subquery, a
parenthesized OR of values, or a single value.  Restricted mode rejects both
grouped forms; the depth limit is checked before consuming the opening
token. -/
def parseListOfValuesBody (go : ProdCall → PState → PResult) (st : PState) : PResult :=
  let peeked := peekTok st
  if peeked.typ = .itemLeftBrace then
    if st.disableComplexExpressions then
      .error ⟨"complex expressions are not allowed", peeked.pos⟩
    else
      let st1 := { st with currentDepth := st.currentDepth + 1 }
      if st1.maxDepth > 0 && st1.currentDepth + 1 > st1.maxDepth then
        .error ⟨"maximum nesting depth exceeded", peeked.pos⟩
      else
        match go .orK (eatSpace (bumpTok st1)) with
        | .error e => .error e
        | .ok (n, st2) =>
          let st3 := eatSpace st2
          let (tok, st4) := nextTok st3
          if tok.typ = .itemRightBrace then
            .ok (.nestedN peeked.pos n, { st4 with currentDepth := st4.currentDepth - 1 })
          else .error (unexpectedErr tok "list of values")
  else if peeked.typ = .itemLeftParen then
    if st.disableComplexExpressions then
      .error ⟨"complex expressions are not allowed", peeked.pos⟩
    else
      let st1 := { st with currentDepth := st.currentDepth + 1 }
      if st1.maxDepth > 0 && st1.currentDepth + 1 > st1.maxDepth then
        .error ⟨"maximum nesting depth exceeded", peeked.pos⟩
      else
        match go .orK (eatSpace (bumpTok st1)) with
        | .error e => .error e
        | .ok (n, st2) =>
          let st3 := eatSpace st2
          let (tok, st4) := nextTok st3
          if tok.typ = .itemRightParen then
            .ok (n, { st4 with currentDepth := st4.currentDepth - 1 })
          else .error (unexpectedErr tok "list of values")
  else
    go .valueK st

/-- Body of the loop of `parseValue` (parser.go): concatenate string,
boolean and wildcard tokens up to a terminator, stripping the surrounding
quotes of quoted strings; an empty value is an error. -/
def parseValueLoopBody (go : ProdCall → PState → PResult) (pos : Nat)
    (acc : List Char) (count : Nat) (st : PState) : PResult :=
  if atTerminatorP st then
    if count = 0 then .error ⟨"value expected", (peekTok st).pos⟩
    else .ok (.literalN pos acc, st)
  else
    let (tok, st1) := nextTok st
    if tok.typ = .itemString || tok.typ = .itemBool || tok.typ = .itemWildcard then
      let v :=
        if tok.typ = .itemString && tok.val.head? = some '"' then (tok.val.drop 1).dropLast
        else tok.val
      go (.valueLoopK pos (acc ++ v) (count + 1)) st1
    else .error (unexpectedErr tok "value")

/-- Body of the implicit-AND loop of `parse` (parser.go): while the next
token is not EOF, skip space and parse another OR term into the synthetic
top-level And node. -/
def parseTopLoopBody (go : ProdCall → PState → PResult) (acc : List Node)
    (st : PState) : PResult :=
  if (peekTok st).typ = .itemEOF then .ok (.andN 0 acc, st)
  else
    match go .orK (eatSpace st) with
    | .error e => .error e
    | .ok (n, st1) => go (.topLoopK (acc ++ [n])) st1

/-- Fuel-indexed interpreter tying the production bodies together: calling a
production with fuel `n + 1` runs its body with all recursive production
calls made at fuel `n`.  The recursion is structural in the fuel, so closed
parses reduce definitionally. -/
def parseRun : Nat → ProdCall → PState → PResult
  | 0, _, _ => .error fuelErr
  | fuel + 1, k, st =>
    match k with
    | .orK => parseOrBody (parseRun fuel) st
    | .orLoopK startPos acc => parseOrLoopBody (parseRun fuel) startPos acc st
    | .andK => parseAndBody (parseRun fuel) st
    | .andLoopK startPos acc => parseAndLoopBody (parseRun fuel) startPos acc st
    | .notK => parseNotBody (parseRun fuel) st
    | .subQueryK => parseSubQueryBody (parseRun fuel) st
    | .expressionK => parseExpressionBody (parseRun fuel) st
    | .listOfValuesK => parseListOfValuesBody (parseRun fuel) st
    | .valueK => parseValueLoopBody (parseRun fuel) (peekTok st).pos [] 0 st
    | .valueLoopK pos acc count => parseValueLoopBody (parseRun fuel) pos acc count st
    | .topLoopK acc => parseTopLoopBody (parseRun fuel) acc st

/-- Grammar production for OR chains (`parseOr` in parser.go). -/
def parseOrF (fuel : Nat) (st : PState) : PResult :=
  parseRun fuel .orK st

/-- Loop of `parseOr` as a named production. -/
def parseOrLoopF (fuel startPos : Nat) (acc : List Node) (st : PState) : PResult :=
  parseRun fuel (.orLoopK startPos acc) st

/-- Grammar production for AND chains (`parseAnd` in parser.go). -/
def parseAndF (fuel : Nat) (st : PState) : PResult :=
  parseRun fuel .andK st

/-- Grammar production for negation (`parseNot` in parser.go). -/
def parseNotF (fuel : Nat) (st : PState) : PResult :=
  parseRun fuel .notK st

/-- Grammar production for a parenthesized subquery or an expression
(`parseSubQuery` in parser.go). -/
def parseSubQueryF (fuel : Nat) (st : PState) : PResult :=
  parseRun fuel .subQueryK st

/-- Grammar production for one expression (`parseExpression` in
parser.go). -/
def parseExpressionF (fuel : Nat) (st : PState) : PResult :=
  parseRun fuel .expressionK st

/-- Grammar production for the value side of a colon (`parseListOfValues`
in parser.go). -/
def parseListOfValuesF (fuel : Nat) (st : PState) : PResult :=
  parseRun fuel .listOfValuesK st

/-- Grammar production for a single scalar value (`parseValue` in
parser.go). -/
def parseValueF (fuel : Nat) (st : PState) : PResult :=
  parseRun fuel .valueK st

/-- Loop of the implicit-AND wrapping in `parse` as a named production. -/
def parseTopLoopF (fuel : Nat) (acc : List Node) (st : PState) : PResult :=
  parseRun fuel (.topLoopK acc) st

/-- Top-level parse (`parse` in parser.go): reset the depth counter, skip
leading space, parse one OR term; if input remains, wrap all further OR
terms into one synthetic And node positioned at zero. -/
def parseTopF (fuel : Nat) (st : PState) : Except PError (Node × PState) :=
  let st0 := { st with currentDepth := 0 }
  let st1 := eatSpace st0
  match parseOrF fuel st1 with
  | .error e => .error e
  | .ok (head, st2) =>
    if (peekTok st2).typ ≠ .itemEOF then parseTopLoopF fuel [head] st2
    else .ok (head, st2)

/-- Parser options (`ParserOption` values in filter.go). -/
inductive ParserOption where
  | disableComplexExpressions
  | withMaxDepth (depth : Int)
  | withMaxComplexity (complexity : Int)
deriving DecidableEq, Repr

/-- Application of one option to the parser (the option closures in
filter.go). -/
def applyOption (st : PState) : ParserOption → PState
  | .disableComplexExpressions => { st with disableComplexExpressions := true }
  | .withMaxDepth d => { st with maxDepth := d }
  | .withMaxComplexity c => { st with maxComplexity := c }

/-- Initial parser state for `ParseAST` (filter.go): depth and complexity
limits default to twenty; options are applied in order; the token list
stands in for the lexer. -/
def initPState (tokens : List Item) (options : List ParserOption) : PState :=
  { (options.foldl applyOption
      { tokens := []
        disableComplexExpressions := false
        maxDepth := 20
        currentDepth := 0
        maxComplexity := 20
        currentComplexity := 0 }) with tokens := tokens }

/-- Fuel granted to the parser by the entry point: the parser's call depth
is bounded by roughly seven frames per token, so this bound is never
reached. -/
def parseFuel (tokens : List Item) : Nat :=
  8 * (tokens.length + 2)

/-- Run the top-level parse on an already-lexed token list (the `p.parse()`
call in `ParseAST`). -/
def parseTokensGo (tokens : List Item) (options : List ParserOption) : Except PError Node :=
  match parseTopF (parseFuel tokens) (initPState tokens options) with
  | .error e => .error e
  | .ok (root, _) => .ok root

/-- The body of `ParseAST` before panic recovery (filter.go): lex the input
and run the top-level parse, yielding the root node or the positioned error
`parse` panicked with. -/
def parseASTGo (input : List Char) (options : List ParserOption) : Except PError Node :=
  parseTokensGo (tokenize input) options

/-- A Go panic value as distinguished by `recover` in parser.go: either an
error value raised by `errorf`, or a runtime fault. -/
inductive GoPanic where
  | errValue (e : PError)
  | runtimeFault (info : String)
deriving DecidableEq, Repr

/-- The `recover` handler of parser.go: an error-value panic becomes the
returned error of `ParseAST`; a runtime fault is re-panicked and keeps
propagating. -/
def recoverGo (r : Except GoPanic Node) : Except GoPanic (Except PError Node) :=
  match r with
  | .ok n => .ok (.ok n)
  | .error (.errValue e) => .ok (.error e)
  | .error (.runtimeFault f) => .error (.runtimeFault f)

/-- `ParseAST` with the panic channel made explicit: the parser body only
ever panics through `errorf` (with an error value), and `recover` converts
exactly those into returned errors.  The outer `Except` is the fatal panic
channel that escapes `ParseAST`. -/
def parseASTFull (input : List Char) (options : List ParserOption) :
    Except GoPanic (Except PError Node) :=
  recoverGo ((parseASTGo input options).mapError .errValue)

/-- One clause of the simplified filter (`Clause` in filter.go): field,
operator (one of the comparison symbols or IN), and the list of values. -/
structure Clause where
  field : List Char
  operator : String
  values : List (List Char)
deriving DecidableEq, Repr

/-- The simplified filter (`Filter` in filter.go): an ordered clause
list. -/
structure KFilter where
  clauses : List Clause
deriving DecidableEq, Repr

/-- Go type name of a node, used in the `%T` error messages of
filter.go. -/
def nodeTypeName : Node → String
  | .orN _ _ => "*kqlfilter.OrNode"
  | .andN _ _ => "*kqlfilter.AndNode"
  | .notN _ _ => "*kqlfilter.NotNode"
  | .isN _ _ _ => "*kqlfilter.IsNode"
  | .rangeN _ _ _ _ => "*kqlfilter.RangeNode"
  | .nestedN _ _ => "*kqlfilter.NestedNode"
  | .literalN _ _ => "*kqlfilter.LiteralNode"

/-- Projection of an `Is` node (`convertIsNode` in filter.go): a literal
value yields one equality clause; an Or of literals yields one IN clause
with all literal values in order; anything else is rejected. -/
def convertIsNode (pos : Nat) (identifier : List Char) (value : Node) :
    Except String KFilter :=
  match value with
  | .literalN _ v => .ok ⟨[⟨identifier, "=", [v]⟩]⟩
  | .orN _ ns =>
    match collectLiteralValues ns with
    | .error e => .error e
    | .ok vs => .ok ⟨[⟨identifier, "IN", vs⟩]⟩
  | other => .error ("unsupported node type " ++ nodeTypeName other)
where
  /-- Values of an Or-of-literals list; a non-literal child is rejected
  (the loop in `convertIsNode`). -/
  collectLiteralValues : List Node → Except String (List (List Char))
    | [] => .ok []
    | .literalN _ v :: rest =>
      match collectLiteralValues rest with
      | .error e => .error e
      | .ok vs => .ok (v :: vs)
    | other :: _ => .error ("unsupported node type " ++ nodeTypeName other)

/-- Projection of a `Range` node (`convertRangeNode` in filter.go): the
value must be a literal; the rendered operator is used as the clause
operator.  The check against the three-question-marks rendering of an
unrecognized operator is kept from the source, although the four modelled
operators never produce it. -/
def convertRangeNode (pos : Nat) (identifier : List Char) (op : RangeOp) (value : Node) :
    Except String KFilter :=
  match value with
  | .literalN _ v =>
    let operator := String.mk op.render
    if operator = "???" then .error ("unsupported operator " ++ operator)
    else .ok ⟨[⟨identifier, operator, [v]⟩]⟩
  | other => .error ("unsupported node type " ++ nodeTypeName other)

/-- Field-repetition cap of `convertAndNode` (filter.go): walking the
clauses in order, a field may occur at most twice. -/
def checkFieldCounts : List Clause → List (List Char) → Except String Unit
  | [], _ => .ok ()
  | c :: rest, seen =>
    if seen.count c.field + 1 > 2 then .error "field count maximum in filter exceeded"
    else checkFieldCounts rest (c.field :: seen)

/-- Clause collection of `convertAndNode` (filter.go): each child must be an
`Is` node or, when the range operator is enabled, a `Range` node. -/
def convertAndChildren (enableRangeOperator : Bool) : List Node → Except String (List Clause)
  | [] => .ok []
  | .isN p id v :: rest =>
    match convertIsNode p id v with
    | .error e => .error e
    | .ok f =>
      match convertAndChildren enableRangeOperator rest with
      | .error e => .error e
      | .ok cs => .ok (f.clauses ++ cs)
  | .rangeN p id op v :: rest =>
    if enableRangeOperator then
      match convertRangeNode p id op v with
      | .error e => .error e
      | .ok f =>
        match convertAndChildren enableRangeOperator rest with
        | .error e => .error e
        | .ok cs => .ok (f.clauses ++ cs)
    else .error "unsupported node type *kqlfilter.AndNode"
  | _ :: _ => .error "unsupported node type *kqlfilter.AndNode"

/-- Projection of an `And` node (`convertAndNode` in filter.go): convert
each child in order, then enforce the field-repetition cap.  The `%T` error
messages of the child loop name the And node itself, as in the source. -/
def convertAndNode (nodes : List Node) (enableRangeOperator : Bool) : Except String KFilter :=
  match convertAndChildren enableRangeOperator nodes with
  | .error e => .error e
  | .ok cs =>
    match checkFieldCounts cs [] with
    | .error e => .error e
    | .ok _ => .ok ⟨cs⟩

/-- Projection of an AST into the simplified filter (`convertToFilter` in
filter.go): an And of simple clauses, a bare Is, or (when enabled) a bare
Range; everything else is rejected. -/
def convertToFilter (ast : Node) (enableRangeOperator : Bool) : Except String KFilter :=
  match ast with
  | .andN _ ns => convertAndNode ns enableRangeOperator
  | .isN p id v => convertIsNode p id v
  | .rangeN p id op v =>
    if enableRangeOperator then convertRangeNode p id op v
    else .error ("unsupported node type " ++ nodeTypeName ast)
  | other => .error ("unsupported node type " ++ nodeTypeName other)

/-- White-space set of Go's `unicode.IsSpace`, which `strings.TrimSpace`
uses: the Latin-1 white-space characters together with the higher
White_Space code points. -/
def isUnicodeSpace (c : Char) : Bool :=
  [' ', '\t', '\n', '\u000b', '\u000c', '\r', '\u0085', ' ',
   ' ', ' ', ' ', ' ', ' ', ' ', ' ',
   ' ', ' ', ' ', ' ', ' ', ' ', ' ',
   ' ', ' ', '　'].contains c

/-- Go's `strings.TrimSpace`: drop white space from both ends. -/
def trimSpaceGo (s : List Char) : List Char :=
  ((s.dropWhile isUnicodeSpace).reverse.dropWhile isUnicodeSpace).reverse

/-- The `Parse` entry point (filter.go): white-space-only input yields the
empty filter; otherwise the input is parsed with the maximum depth lowered
to two and the resulting AST is projected into a `Filter`.  A parse error is
surfaced in its rendered form. -/
def ParseGo (input : List Char) (enableRangeOperator : Bool) : Except String KFilter :=
  if trimSpaceGo input = [] then .ok ⟨[]⟩
  else
    match parseASTGo input [.withMaxDepth 2] with
    | .error e => .error (renderPError e)
    | .ok ast => convertToFilter ast enableRangeOperator

/-- The transformer record (`NodeTransformer` in transform.go): one function
for identifiers, one for literal values.  The Go functions have type
string-to-string and therefore cannot report an error. -/
structure NodeTransformer where
  transformIdentifierFunc : List Char → List Char
  transformValueFunc : List Char → List Char

mutual

/-- In-place tree rewrite (`TransformAST` in transform.go), modelled as
returning the rewritten tree: And/Or recurse into every child, Is/Range map
their identifier and recurse into their value, Not recurses into its child,
Literal maps its value.  The Go type switch has no case for `*NestedNode`,
so a Nested node (and everything below it) is returned untouched; the
function can only propagate errors of recursive calls and therefore never
produces one. -/
def TransformASTGo (tr : NodeTransformer) : Node → Except String Node
  | .andN p ns =>
    match transformListGo tr ns with
    | .error e => .error e
    | .ok ns2 => .ok (.andN p ns2)
  | .orN p ns =>
    match transformListGo tr ns with
    | .error e => .error e
    | .ok ns2 => .ok (.orN p ns2)
  | .isN p id v =>
    match TransformASTGo tr v with
    | .error e => .error e
    | .ok v2 => .ok (.isN p (tr.transformIdentifierFunc id) v2)
  | .notN p e =>
    match TransformASTGo tr e with
    | .error err => .error err
    | .ok e2 => .ok (.notN p e2)
  | .rangeN p id op v =>
    match TransformASTGo tr v with
    | .error e => .error e
    | .ok v2 => .ok (.rangeN p (tr.transformIdentifierFunc id) op v2)
  | .literalN p v => .ok (.literalN p (tr.transformValueFunc v))
  | .nestedN p e => .ok (.nestedN p e)

/-- Child-list traversal of `TransformAST` (the loops of the And/Or
cases). -/
def transformListGo (tr : NodeTransformer) : List Node → Except String (List Node)
  | [] => .ok []
  | n :: rest =>
    match TransformASTGo tr n with
    | .error e => .error e
    | .ok n2 =>
      match transformListGo tr rest with
      | .error e => .error e
      | .ok rest2 => .ok (n2 :: rest2)

end

/-- Error message of a parse result, ignoring the position. -/
def errMsgOf (r : Except PError Node) : Option String :=
  match r with
  | .error e => some e.msg
  | .ok _ => none

/-- Success test for an `Except` result. -/
def exIsOk {ε α : Type} (r : Except ε α) : Bool :=
  match r with
  | .ok _ => true
  | .error _ => false

/-- A filter nested `n` levels deep via repeated braced value lists, the
input family of the depth-limit property. -/
def nestedFilter : Nat → List Char
  | 0 => "f:v".toList
  | n + 1 => "f:".toList ++ [lbrace] ++ nestedFilter n ++ [rbrace]

mutual

/-- The rewrite `TransformAST` actually performs, as a pure function:
identifiers of Is/Range nodes and values of Literal nodes are mapped
everywhere above and outside Nested nodes, while a Nested node and its whole
sub-expression are returned untouched. -/
def pureTransform (tr : NodeTransformer) : Node → Node
  | .orN p ns => .orN p (pureTransformList tr ns)
  | .andN p ns => .andN p (pureTransformList tr ns)
  | .notN p e => .notN p (pureTransform tr e)
  | .isN p id v => .isN p (tr.transformIdentifierFunc id) (pureTransform tr v)
  | .rangeN p id op v => .rangeN p (tr.transformIdentifierFunc id) op (pureTransform tr v)
  | .nestedN p e => .nestedN p e
  | .literalN p v => .literalN p (tr.transformValueFunc v)

/-- Child-list counterpart of `pureTransform`. -/
def pureTransformList (tr : NodeTransformer) : List Node → List Node
  | [] => []
  | n :: rest => pureTransform tr n :: pureTransformList tr rest

end

mutual

/-- Modelled from the spec: the transform described by the claim, which
applies the two functions to every identifier and literal anywhere in the
tree, including inside a Nested node's sub-expression. -/
def transformClaimC4Spec (tr : NodeTransformer) : Node → Node
  | .orN p ns => .orN p (transformClaimC4SpecList tr ns)
  | .andN p ns => .andN p (transformClaimC4SpecList tr ns)
  | .notN p e => .notN p (transformClaimC4Spec tr e)
  | .isN p id v => .isN p (tr.transformIdentifierFunc id) (transformClaimC4Spec tr v)
  | .rangeN p id op v =>
    .rangeN p (tr.transformIdentifierFunc id) op (transformClaimC4Spec tr v)
  | .nestedN p e => .nestedN p (transformClaimC4Spec tr e)
  | .literalN p v => .literalN p (tr.transformValueFunc v)

/-- Child-list counterpart of `transformClaimC4Spec`. -/
def transformClaimC4SpecList (tr : NodeTransformer) : List Node → List Node
  | [] => []
  | n :: rest => transformClaimC4Spec tr n :: transformClaimC4SpecList tr rest

end

/-- Modelled from the spec: the `Parse` wrapper as the spec describes it,
parsing non-empty input with complex expressions disabled before
projecting. -/
def parseClaimC3Spec (input : List Char) (enableRangeOperator : Bool) :
    Except String KFilter :=
  if trimSpaceGo input = [] then .ok ⟨[]⟩
  else
    match parseASTGo input [.disableComplexExpressions] with
    | .error e => .error (renderPError e)
    | .ok ast => convertToFilter ast enableRangeOperator

/-- Root node produced for the implicit-AND example input. -/
def c6Root : Node :=
  .andN 0 [.isN 0 ['a'] (.literalN 2 ['1']), .isN 4 ['b'] (.literalN 6 ['2'])]

/-- C6: parsing `a:1 b:2` succeeds; the space-separated top-level terms are
wrapped exactly once, at the top level, into a single synthetic And node at
position zero, whose rendering is `(a=1 AND b=2)`. -/
theorem c6_theorem :
    parseASTGo "a:1 b:2".toList [] = .ok c6Root ∧
    renderString c6Root = "(a=1 AND b=2)" := by
  constructor
  · rfl
  · rfl

/-- Root node produced for the precedence example input. -/
def c7Root : Node :=
  .orN 0
    [.isN 0 ['a'] (.literalN 2 ['1']),
     .andN 7 [.isN 7 ['b'] (.literalN 9 ['2']), .isN 15 ['c'] (.literalN 17 ['3'])]]

/-- C7: parsing `a:1 OR b:2 AND c:3` succeeds with AND binding tighter than
OR, and the single-child collapse leaves no trivial wrapper: the root is an
Or of a clause and an And, rendering as `(a=1 OR (b=2 AND c=3))`. -/
theorem c7_theorem :
    parseASTGo "a:1 OR b:2 AND c:3".toList [] = .ok c7Root ∧
    renderString c7Root = "(a=1 OR (b=2 AND c=3))" := by
  constructor
  · rfl
  · rfl

/-- Root node produced for the IN-list example input. -/
def c8Root : Node :=
  .isN 0 ['a'] (.orN 3 [.literalN 3 ['x'], .literalN 8 ['y']])

/-- C8: parsing `a:(x OR y)` without restrictions succeeds with a root
rendering as `a=(x OR y)`, and projecting that AST into a filter yields
exactly one clause with field `a`, operator `IN`, and values `x`, `y` in
source order. -/
theorem c8_theorem :
    parseASTGo "a:(x OR y)".toList [] = .ok c8Root ∧
    renderString c8Root = "a=(x OR y)" ∧
    convertToFilter c8Root false = .ok ⟨[⟨['a'], "IN", [['x'], ['y']]⟩]⟩ := by
  refine ⟨?_, ?_, ?_⟩
  · rfl
  · rfl
  · rfl

/-- Root node produced for the escaped-colon example input. -/
def c9Root : Node :=
  .isN 0 ['f', 'i', 'e', 'l', 'd', ':', 'x'] (.literalN 9 "value".toList)

/-- C9: parsing an identifier with a backslash-escaped colon succeeds with
an Is node whose identifier contains a literal colon character (the lexer
resolved the escape), and the root renders as `field:x=value`. -/
theorem c9_theorem :
    parseASTGo "field\\:x:value".toList [] = .ok c9Root ∧
    (':' ∈ (['f', 'i', 'e', 'l', 'd', ':', 'x'] : List Char)) ∧
    renderString c9Root = "field:x=value" := by
  refine ⟨?_, ?_, ?_⟩
  · rfl
  · decide
  · rfl

/-- C1 counterexample: two otherwise well-formed inputs, one containing a
NOT operator and one containing parenthesized grouping, for which
`ParseAST` with `DisableComplexExpressions` returns a parse tree and no
error — the restricted mode only checks for OR inside `parseOr` and for
grouped value lists inside `parseListOfValues`, so NOT and subquery
parentheses pass. -/
theorem c1_counterexample :
    parseASTGo "NOT a:1".toList [.disableComplexExpressions] =
      .ok (.notN 0 (.isN 4 ['a'] (.literalN 6 ['1']))) ∧
    parseASTGo "(a:1)".toList [.disableComplexExpressions] =
      .ok (.isN 1 ['a'] (.literalN 3 ['1'])) := by
  constructor
  · rfl
  · rfl

/-- C1 (amended): with `DisableComplexExpressions`, any explicit OR operator
and any braced or parenthesized value list is rejected with the
complex-expressions error — stated generally over the production state —
while NOT operators and parenthesized subquery grouping are not rejected,
witnessed by the accepting parses of the counterexample inputs. -/
theorem c1_theorem :
    (∀ (fuel startPos : Nat) (acc : List Node) (st : PState),
        st.disableComplexExpressions = true →
        (peekTok st).typ = .itemOr →
        parseOrLoopF (fuel + 1) startPos acc st =
          .error ⟨"complex expressions are not allowed", (peekTok st).pos⟩) ∧
    (∀ (fuel : Nat) (st : PState),
        st.disableComplexExpressions = true →
        ((peekTok st).typ = .itemLeftBrace ∨ (peekTok st).typ = .itemLeftParen) →
        parseListOfValuesF (fuel + 1) st =
          .error ⟨"complex expressions are not allowed", (peekTok st).pos⟩) ∧
    errMsgOf (parseASTGo "a:1 OR b:2".toList [.disableComplexExpressions]) =
      some "complex expressions are not allowed" ∧
    errMsgOf (parseASTGo "a:(x OR y)".toList [.disableComplexExpressions]) =
      some "complex expressions are not allowed" ∧
    errMsgOf (parseASTGo ("a:".toList ++ [lbrace] ++ "b:1".toList ++ [rbrace])
        [.disableComplexExpressions]) =
      some "complex expressions are not allowed" ∧
    exIsOk (parseASTGo "NOT a:1".toList [.disableComplexExpressions]) = true ∧
    exIsOk (parseASTGo "(a:1)".toList [.disableComplexExpressions]) = true := by
  refine ⟨?_, ?_, ?_, ?_, ?_, ?_, ?_⟩
  · intro fuel startPos acc st hdis hor
    simp [parseOrLoopF, parseRun, parseOrLoopBody, hdis, hor]
  · intro fuel st hdis hpeek
    rcases hpeek with h | h
    · simp [parseListOfValuesF, parseRun, parseListOfValuesBody, hdis, h]
    · have hne : (peekTok st).typ ≠ ItemType.itemLeftBrace := by
        rw [h]
        intro hcontra
        cases hcontra
      simp [parseListOfValuesF, parseRun, parseListOfValuesBody, hdis, h, hne]
  · rfl
  · rfl
  · rfl
  · rfl
  · rfl

/-- State with an OR token at the front, for the C1 witness. -/
def c1WitnessStOr : PState :=
  { tokens := [⟨.itemOr, 5, "OR".toList⟩, ⟨.itemEOF, 7, []⟩]
    disableComplexExpressions := true
    maxDepth := 20
    currentDepth := 0
    maxComplexity := 20
    currentComplexity := 0 }

/-- State with a left brace token at the front, for the C1 witness. -/
def c1WitnessStBrace : PState :=
  { tokens := [⟨.itemLeftBrace, 2, [lbrace]⟩, ⟨.itemEOF, 3, []⟩]
    disableComplexExpressions := true
    maxDepth := 20
    currentDepth := 0
    maxComplexity := 20
    currentComplexity := 0 }

/-- Witness for C1: the general rejection lemmas applied at concrete
states. -/
theorem c1_witness :
    parseOrLoopF 1 0 [] c1WitnessStOr =
      .error ⟨"complex expressions are not allowed", 5⟩ ∧
    parseListOfValuesF 1 c1WitnessStBrace =
      .error ⟨"complex expressions are not allowed", 2⟩ := by
  constructor
  · exact c1_theorem.1 0 0 [] c1WitnessStOr rfl rfl
  · exact c1_theorem.2.1 0 c1WitnessStBrace rfl (Or.inl rfl)

set_option maxRecDepth 40000 in
/-- C2 counterexample: with the default maximum depth of twenty, a filter
nested exactly twenty levels deep via repeated braces is rejected with the
nesting-depth error, although the claim says it must succeed — the parser
increments its depth counter before comparing `currentDepth + 1` against the
limit, so the twentieth opening brace already exceeds it. -/
theorem c2_counterexample :
    parseASTGo (nestedFilter 20) [] =
      .error ⟨"maximum nesting depth exceeded", 59⟩ := by
  rfl

set_option maxRecDepth 40000 in
/-- C2 (amended): with the default maximum depth of twenty, a filter nested
twenty-one levels deep via repeated braces fails with the resource-limit
error, as does one nested exactly twenty levels deep; the deepest accepted
nesting is nineteen levels. -/
theorem c2_theorem :
    errMsgOf (parseASTGo (nestedFilter 21) []) =
      some "maximum nesting depth exceeded" ∧
    errMsgOf (parseASTGo (nestedFilter 20) []) =
      some "maximum nesting depth exceeded" ∧
    exIsOk (parseASTGo (nestedFilter 19) []) = true := by
  refine ⟨?_, ?_, ?_⟩
  · rfl
  · rfl
  · rfl

/-- C3 counterexample: on the input with a parenthesized value list, `Parse`
succeeds with an IN clause, while parsing the same input with complex
expressions disabled (as the claim describes the wrapper) fails — the
wrapper actually passes `WithMaxDepth 2`, not
`DisableComplexExpressions`. -/
theorem c3_counterexample :
    ParseGo "a:(x OR y)".toList false = .ok ⟨[⟨['a'], "IN", [['x'], ['y']]⟩]⟩ ∧
    exIsOk (parseClaimC3Spec "a:(x OR y)".toList false) = false := by
  constructor
  · rfl
  · rfl

/-- C3 (amended): for every input whose white-space-trimmed form is empty,
`Parse` returns the empty filter and no error; for every other input,
`Parse` parses it with the maximum nesting depth lowered to two — complex
expressions stay enabled, as the accepting IN-list parse shows — and
projects the resulting AST into a filter. -/
theorem c3_theorem :
    (∀ (input : List Char) (b : Bool),
        trimSpaceGo input = [] → ParseGo input b = .ok ⟨[]⟩) ∧
    (∀ (input : List Char) (b : Bool),
        trimSpaceGo input ≠ [] →
        ParseGo input b =
          (match parseASTGo input [.withMaxDepth 2] with
           | .error e => .error (renderPError e)
           | .ok ast => convertToFilter ast b)) ∧
    ParseGo "a:(x OR y)".toList false = .ok ⟨[⟨['a'], "IN", [['x'], ['y']]⟩]⟩ := by
  refine ⟨?_, ?_, ?_⟩
  · intro input b h
    simp [ParseGo, h]
  · intro input b h
    simp [ParseGo, h]
  · rfl

/-- Witness for C3: both branches of the wrapper description applied at
concrete inputs. -/
theorem c3_witness :
    ParseGo " ".toList false = .ok ⟨[]⟩ ∧
    ParseGo "a:1".toList true =
      (match parseASTGo "a:1".toList [.withMaxDepth 2] with
       | .error e => .error (renderPError e)
       | .ok ast => convertToFilter ast true) := by
  constructor
  · exact c3_theorem.1 " ".toList false (by decide)
  · exact c3_theorem.2.1 "a:1".toList true (by decide)

/-- Transformer used in the C4 counterexample: it prefixes identifiers and
values with marker characters. -/
def c4Tr : NodeTransformer :=
  ⟨fun s => 'X' :: s, fun s => 'Y' :: s⟩

/-- Tree used in the C4 counterexample: an Is node whose value is a Nested
node containing a further clause. -/
def c4Tree : Node :=
  .isN 0 ['a'] (.nestedN 2 (.isN 3 ['b'] (.literalN 5 ['c'])))

/-- C4 counterexample: `TransformAST` leaves the identifier and the literal
inside the Nested node untouched (its type switch has no Nested case), while
the transform the claim describes rewrites them; the two results render
differently. -/
theorem c4_counterexample :
    TransformASTGo c4Tr c4Tree =
      .ok (.isN 0 ['X', 'a'] (.nestedN 2 (.isN 3 ['b'] (.literalN 5 ['c'])))) ∧
    transformClaimC4Spec c4Tr c4Tree =
      .isN 0 ['X', 'a'] (.nestedN 2 (.isN 3 ['X', 'b'] (.literalN 5 ['Y', 'c']))) ∧
    renderString (.isN 0 ['X', 'a'] (.nestedN 2 (.isN 3 ['b'] (.literalN 5 ['c'])))) ≠
      renderString (.isN 0 ['X', 'a'] (.nestedN 2 (.isN 3 ['X', 'b'] (.literalN 5 ['Y', 'c'])))) := by
  refine ⟨?_, ?_, ?_⟩
  · rfl
  · rfl
  · decide

/-- C5: every user-input-driven parse failure is returned from `ParseAST`
as an ordinary error value — recovery always succeeds, the outer fatal
channel never fires for any input and options — and any returned error
renders with its byte position; a runtime-fault panic, by contrast, is
re-panicked by the `recover` handler rather than converted into a parse
error. -/
theorem c5_theorem :
    (∀ (input : List Char) (opts : List ParserOption),
        parseASTFull input opts = .ok (parseASTGo input opts)) ∧
    (∀ (input : List Char) (opts : List ParserOption) (e : PError),
        parseASTFull input opts = .ok (.error e) →
        parseASTGo input opts = .error e ∧
        renderPError e = "parser error: " ++ e.msg ++ " at pos " ++ toString e.pos) ∧
    (∀ f : String,
        recoverGo (.error (.runtimeFault f)) = .error (.runtimeFault f)) := by
  refine ⟨?_, ?_, ?_⟩
  · intro input opts
    unfold parseASTFull
    cases h : parseASTGo input opts <;> simp [recoverGo, Except.mapError, h]
  · intro input opts e hfull
    have h1 : parseASTFull input opts = .ok (parseASTGo input opts) := by
      unfold parseASTFull
      cases h : parseASTGo input opts <;> simp [recoverGo, Except.mapError, h]
    rw [h1] at hfull
    have h2 : parseASTGo input opts = .error e := by
      cases h : parseASTGo input opts <;> rw [h] at hfull
      · simp at hfull
        rw [hfull]
      · simp at hfull
    exact ⟨h2, rfl⟩
  · intro f
    rfl

/-- Witness for C5: a concrete failing parse surfaces through the recover
boundary as a returned, positioned error. -/
theorem c5_witness :
    parseASTGo "x:".toList [] = .error ⟨"value expected", 2⟩ ∧
    renderPError ⟨"value expected", 2⟩ = "parser error: value expected at pos 2" := by
  exact c5_theorem.2.1 "x:".toList [] ⟨"value expected", 2⟩ (by rfl)

/-- C10 counterexample: the vertical-tab input consists only of white space
in the sense of Go's `TrimSpace` — and `Parse` accordingly returns the empty
filter with no error — yet `ParseAST` does not fail on it: the lexer's space
class lacks the vertical tab, so the input parses as a bare literal with no
error instead of the claimed unexpected-end-of-input error. -/
theorem c10_counterexample :
    trimSpaceGo ['\u000b'] = [] ∧
    parseASTGo ['\u000b'] [] = .ok (.literalN 0 ['\u000b']) ∧
    ParseGo ['\u000b'] false = .ok ⟨[]⟩ := by
  refine ⟨?_, ?_, ?_⟩
  · rfl
  · rfl
  · rfl

mutual

/-- Helper for C4: `TransformAST` computes exactly the pure rewrite that
stops at Nested nodes, and never returns an error. -/
theorem transformASTGo_eq (tr : NodeTransformer) : (t : Node) →
    TransformASTGo tr t = .ok (pureTransform tr t)
  | .orN p ns => by
    simp only [TransformASTGo, pureTransform, transformListGo_eq tr ns]
  | .andN p ns => by
    simp only [TransformASTGo, pureTransform, transformListGo_eq tr ns]
  | .notN p e => by
    simp only [TransformASTGo, pureTransform, transformASTGo_eq tr e]
  | .isN p id v => by
    simp only [TransformASTGo, pureTransform, transformASTGo_eq tr v]
  | .rangeN p id op v => by
    simp only [TransformASTGo, pureTransform, transformASTGo_eq tr v]
  | .nestedN p e => by
    simp only [TransformASTGo, pureTransform]
  | .literalN p v => by
    simp only [TransformASTGo, pureTransform]

/-- Helper for C4, list version. -/
theorem transformListGo_eq (tr : NodeTransformer) : (ns : List Node) →
    transformListGo tr ns = .ok (pureTransformList tr ns)
  | [] => by
    simp only [transformListGo, pureTransformList]
  | n :: rest => by
    simp only [transformListGo, pureTransformList, transformASTGo_eq tr n,
      transformListGo_eq tr rest]

end

/-- C4 (amended): for every tree and every pair of supplied functions,
`TransformAST` applies the identifier function to the identifier of every Is
and Range node and the value function to the value of every Literal node
reachable without crossing a Nested node — a Nested node's sub-expression is
left untouched — and it always returns a nil error (the supplied functions,
of type string to string, cannot report one). -/
theorem c4_theorem (tr : NodeTransformer) (t : Node) :
    TransformASTGo tr t = .ok (pureTransform tr t) :=
  transformASTGo_eq tr t

/-- Helper for C10: the lexer's space characters are white space for Go's
`TrimSpace`. -/
theorem isSpaceGo_isUnicodeSpace (c : Char) (h : isSpaceGo c = true) :
    isUnicodeSpace c = true := by
  simp only [isSpaceGo, Bool.or_eq_true, decide_eq_true_eq] at h
  rcases h with ((h | h) | h) | h <;> subst h <;> decide

/-- Helper for C10: a string of lexer space characters trims to nothing. -/
theorem trimSpace_of_all_space (s : List Char) (h : s.all isSpaceGo = true) :
    trimSpaceGo s = [] := by
  have h2 : ∀ c ∈ s, isUnicodeSpace c = true := fun c hc =>
    isSpaceGo_isUnicodeSpace c (List.all_eq_true.mp h c hc)
  unfold trimSpaceGo
  rw [List.dropWhile_eq_nil_iff.mpr h2]
  simp

/-- Helper for C10: a nonempty all-space input lexes to one space token
covering the whole input followed by the EOF token. -/
theorem tokenize_all_space (c : Char) (s : List Char) (hc : isSpaceGo c = true)
    (hs : s.all isSpaceGo = true) :
    tokenize (c :: s) = [⟨.itemSpace, 0, c :: s⟩, ⟨.itemEOF, s.length + 1, []⟩] := by
  have htake : s.takeWhile isSpaceGo = s :=
    List.takeWhile_eq_self_iff.mpr (List.all_eq_true.mp hs)
  have hdrop : s.dropWhile isSpaceGo = [] :=
    List.dropWhile_eq_nil_iff.mpr (List.all_eq_true.mp hs)
  show tokenizeAux ((c :: s).length + 1) 0 (c :: s) 0 0 = _
  simp only [List.length_cons]
  simp only [tokenizeAux, nextItemF, hc, htake, hdrop, if_true]
  simp_arith

/-- Helper for C10: the parser rejects a token list consisting of one space
run and EOF with the unexpected-end-of-input error positioned at the EOF
token. -/
theorem parseTokens_space_eof (v : List Char) (p q : Nat) :
    parseTokensGo [⟨.itemSpace, p, v⟩, ⟨.itemEOF, q, []⟩] [] =
      .error ⟨"unexpected EOF in expression", q⟩ := by
  rfl

/-- Helper for C10: the parser rejects the empty token stream the same
way. -/
theorem parseTokens_eof (q : Nat) :
    parseTokensGo [⟨.itemEOF, q, []⟩] [] =
      .error ⟨"unexpected EOF in expression", q⟩ := by
  rfl

/-- C10 (amended): for every input that is empty or consists only of the
lexer's space characters (space, tab, CR, LF), `ParseAST` fails with an
unexpected-end-of-input parse error — positioned at the end of input — and
returns no node, while `Parse` on the same input returns the empty filter
with no error.  (As the counterexample shows, other Unicode white space such
as the vertical tab trims to nothing for `Parse` but parses as a literal in
`ParseAST`.) -/
theorem c10_theorem (s : List Char) (b : Bool)
    (h : s = [] ∨ (s ≠ [] ∧ s.all isSpaceGo = true)) :
    parseASTGo s [] = .error ⟨"unexpected EOF in expression", s.length⟩ ∧
    ParseGo s b = .ok ⟨[]⟩ := by
  rcases h with rfl | ⟨hne, hall⟩
  · exact ⟨rfl, rfl⟩
  · obtain ⟨c, s2, rfl⟩ : ∃ c s2, s = c :: s2 := by
      cases s with
      | nil => exact absurd rfl hne
      | cons c s2 => exact ⟨c, s2, rfl⟩
    simp only [List.all_cons, Bool.and_eq_true] at hall
    constructor
    · show parseTokensGo (tokenize (c :: s2)) [] = _
      rw [tokenize_all_space c s2 hall.1 hall.2, parseTokens_space_eof]
      simp
    · have htrim : trimSpaceGo (c :: s2) = [] :=
        trimSpace_of_all_space (c :: s2)
          (by simp only [List.all_cons, Bool.and_eq_true]; exact hall)
      simp [ParseGo, htrim]

/-- Witness for C10: the two-space input fails `ParseAST` with the
unexpected-end-of-input error and yields the empty filter through
`Parse`. -/
theorem c10_witness :
    parseASTGo "  ".toList [] = .error ⟨"unexpected EOF in expression", 2⟩ ∧
    ParseGo "  ".toList false = .ok ⟨[]⟩ := by
  have h := c10_theorem "  ".toList false (Or.inr ⟨by decide, by decide⟩)
  exact h
